import Mathlib

/-!
Shallow embedding of the transcript-analysis core of
`src/app/api/analyze/route.ts` (the upload entry point) and
`src/unnamed/part_000` (the n8n webhook entry point).

Strings are processed as `List Char`; the JS numbers holding times, scores
and thresholds are modelled as `ℚ`.  The possibly-NaN threshold of the
upload entry point is modelled as `Option ℚ` with `none` standing for NaN
(`parseFloat` of a missing or non-numeric form field), since every JS `>=`
comparison against NaN is false.  The external `sentiment` npm package is an
injected parameter `f : String → ℚ` (the Scorer is a deterministic function
of the text, per the spec's Sentiment Scorer contract).
-/

/-- `Segment` of both source files.  The source field `end` is a Lean
keyword and is called `endTime` here. -/
structure Segment where
  start : ℚ
  endTime : ℚ
  text : String
  score : ℚ
deriving DecidableEq

/-- JS `String.prototype.trim` (the transcripts here are ASCII, so ASCII
whitespace suffices). -/
def jsTrim (l : List Char) : List Char :=
  ((l.dropWhile Char.isWhitespace).reverse.dropWhile Char.isWhitespace).reverse

/-- JS `content.split('\n')`. -/
def splitNl : List Char → List (List Char)
  | [] => [[]]
  | c :: rest =>
    if c = '\n' then [] :: splitNl rest
    else
      match splitNl rest with
      | [] => [[c]]
      | l :: ls => (c :: l) :: ls

/-- The regex `\d{n}`: exactly `n` decimal digits, returned as their numeric
value (`parseInt` of the captured group) together with the rest of the
input. -/
def digitsN : Nat → Nat → List Char → Option (Nat × List Char)
  | 0, acc, l => some (acc, l)
  | _ + 1, _, [] => none
  | n + 1, acc, c :: l =>
    if c.isDigit then digitsN n (10 * acc + (c.toNat - 48)) l else none

/-- One literal character of a pattern. -/
def expectChar (c : Char) : List Char → Option (List Char)
  | [] => none
  | x :: l => if x = c then some l else none

/-- A literal character sequence of a pattern. -/
def expectChars : List Char → List Char → Option (List Char)
  | [], l => some l
  | c :: cs, l => (expectChar c l).bind (expectChars cs)

/-- The six-field time-code arithmetic of `parseTranscript` (SRT blocks):
`h*3600 + m*60 + s + ms/1000` seconds. -/
def timeFromFields (h m s ms : Nat) : ℚ :=
  h * 3600 + m * 60 + s + ms / 1000

/-- The three-field time-code arithmetic of `parseTranscript` (bracketed
lines): `h*3600 + m*60 + s` seconds. -/
def timeFromFields3 (h m s : Nat) : ℚ :=
  h * 3600 + m * 60 + s

/-- The lookahead `(?=\n\n|\n*$)` of the SRT pattern: the rest starts with a
blank line, or consists only of newlines up to end-of-input. -/
def srtStop (l : List Char) : Bool :=
  match l with
  | '\n' :: '\n' :: _ => true
  | _ => l.all (· = '\n')

/-- The lazy `([\s\S]*?)` before that lookahead: the shortest prefix whose
remainder satisfies `srtStop`. -/
def srtText : List Char → List Char × List Char
  | [] => ([], [])
  | c :: cs =>
    if srtStop (c :: cs) then ([], c :: cs)
    else
      let (t, r) := srtText cs
      (c :: t, r)

/-- The time-code part `(\d{2}):(\d{2}):(\d{2}),(\d{3})` of the SRT
pattern, already converted by `timeFromFields`. -/
def srtTimecode (l : List Char) : Option (ℚ × List Char) := do
  let (h, r1) ← digitsN 2 0 l
  let r2 ← expectChar ':' r1
  let (m, r3) ← digitsN 2 0 r2
  let r4 ← expectChar ':' r3
  let (s, r5) ← digitsN 2 0 r4
  let r6 ← expectChar ',' r5
  let (ms, r7) ← digitsN 3 0 r6
  return (timeFromFields h m s ms, r7)

/-- One attempt of the SRT block pattern
`(\d+)\n(\d{2}):(\d{2}):(\d{2}),(\d{3}) --> (\d{2}):(\d{2}):(\d{2}),(\d{3})\n([\s\S]*?)(?=\n\n|\n*$)`
at this position, building the pushed segment (block text trimmed, then
inner newlines replaced by spaces; `score: 0`) and the rest of the input
after the match. -/
def srtHere (l : List Char) : Option (Segment × List Char) := do
  let (ds, r0) := l.span Char.isDigit
  if ds.isEmpty then none
  else
    let r1 ← expectChar '\n' r0
    let (start, r2) ← srtTimecode r1
    let r3 ← expectChars " --> ".data r2
    let (stop, r4) ← srtTimecode r3
    let r5 ← expectChar '\n' r4
    let (t, rest) := srtText r5
    return ({ start := start, endTime := stop,
              text := String.mk ((jsTrim t).map fun c => if c = '\n' then ' ' else c),
              score := 0 }, rest)

/-- The `srtPattern.exec` loop: leftmost matches, resuming after each match.
Fuel is the input length; every step consumes at least one character, so the
fuel never runs out before the input does. -/
def srtScanAux : Nat → List Char → List Segment
  | 0, _ => []
  | _ + 1, [] => []
  | fuel + 1, c :: cs =>
    match srtHere (c :: cs) with
    | some (seg, rest) => seg :: srtScanAux fuel rest
    | none => srtScanAux fuel cs

/-- The segments the SRT strategy of `parseTranscript` collects. -/
def srtSegments (content : List Char) : List Segment :=
  srtScanAux content.length content

/-- One attempt of `\[(\d{2}):(\d{2}):(\d{2})\]\s*(.*)` at this position of a
line (lines hold no newline, so `(.*)` takes the whole remainder after the
greedy `\s*`). -/
def bracketHere (l : List Char) : Option (Nat × Nat × Nat × List Char) := do
  let r0 ← expectChar '[' l
  let (h, r1) ← digitsN 2 0 r0
  let r2 ← expectChar ':' r1
  let (m, r3) ← digitsN 2 0 r2
  let r4 ← expectChar ':' r3
  let (s, r5) ← digitsN 2 0 r4
  let r6 ← expectChar ']' r5
  return (h, m, s, r6.dropWhile Char.isWhitespace)

/-- `lines[i].match(timestampPattern)`: the first position of the line where
the bracketed pattern matches. -/
def bracketLine : List Char → Option (Nat × Nat × Nat × List Char)
  | [] => none
  | c :: cs =>
    match bracketHere (c :: cs) with
    | some r => some r
    | none => bracketLine cs

/-- The bracketed-timestamp strategy of `src/app/api/analyze/route.ts`:
the input is split on newlines, lines blank after trimming are dropped, and
every line the pattern matches becomes one segment with
`end = start + 5` (the source ternary writes `start + 5` in both branches)
and the trimmed tail as text. -/
def bracketSegments (content : List Char) : List Segment :=
  let lines := (splitNl content).filter fun line => !(jsTrim line).isEmpty
  lines.filterMap fun line =>
    (bracketLine line).map fun (h, m, s, t) =>
      let start := timeFromFields3 h m s
      { start := start, endTime := start + 5, text := String.mk (jsTrim t), score := 0 }

/-- A sentence terminator of the plain-text heuristic. -/
def isSentenceEnd (c : Char) : Bool :=
  c = '.' || c = '!' || c = '?'

/-- `content.match(/[^.!?]+[.!?]+/g)`: the leftmost non-overlapping matches,
each a maximal nonempty run of non-terminators followed by a maximal
nonempty run of terminators.  Fuel is the input length. -/
def sentScanAux : Nat → List Char → List (List Char)
  | 0, _ => []
  | _ + 1, [] => []
  | fuel + 1, c :: cs =>
    if isSentenceEnd c then sentScanAux fuel cs
    else
      let (t, r) := (c :: cs).span fun x => !isSentenceEnd x
      let (p, r2) := r.span isSentenceEnd
      if p.isEmpty then [] else (t ++ p) :: sentScanAux fuel r2

def sentMatches (content : List Char) : List (List Char) :=
  sentScanAux content.length content

/-- `content.match(/[^.!?]+[.!?]+/g) || [content]`: the whole input as one
chunk when the regex finds no match (`match` returns null). -/
def jsSentences (content : List Char) : List (List Char) :=
  let m := sentMatches content
  if m.isEmpty then [content] else m

/-- JS `Math.min` on two (non-NaN) numbers. -/
def jsMin (a b : ℚ) : ℚ := if a ≤ b then a else b

/-- JS `Math.max` on two (non-NaN) numbers. -/
def jsMax (a b : ℚ) : ℚ := if a ≤ b then b else a

/-- `Math.max(3, Math.min(10, text.length / 10))`, the estimated duration. -/
def durFor (text : List Char) : ℚ :=
  jsMax 3 (jsMin 10 ((text.length : ℚ) / 10))

/-- The `sentences.forEach` loop: each trimmed chunk becomes a segment laid
out back-to-back from `currentTime`. -/
def layout : ℚ → List (List Char) → List Segment
  | _, [] => []
  | currentTime, sentence :: rest =>
    let text := jsTrim sentence
    let duration := durFor text
    { start := currentTime, endTime := currentTime + duration,
      text := String.mk text, score := 0 } :: layout (currentTime + duration) rest

/-- The plain-text sentence strategy of `parseTranscript`. -/
def plainSegments (content : List Char) : List Segment :=
  layout 0 (jsSentences content)

/-- `parseTranscript` of `src/app/api/analyze/route.ts` (upload entry
point): SRT blocks, then bracketed-timestamp lines, then the sentence
heuristic, each later strategy running only when the earlier ones produced
zero segments. -/
def parseTranscript (content : String) : List Segment :=
  let segments := srtSegments content.data
  let segments := if segments.isEmpty then bracketSegments content.data else segments
  if segments.isEmpty then plainSegments content.data else segments

/-- `parseTranscript` of `src/unnamed/part_000` (webhook entry point): SRT
blocks, then directly the sentence heuristic — it has no bracketed-timestamp
strategy. -/
def parseTranscriptWebhook (content : String) : List Segment :=
  let segments := srtSegments content.data
  if segments.isEmpty then plainSegments content.data else segments

/-- The `analyzedSegments` map inside `analyzeSentiment`: score every
segment's text with the injected lexicon scorer, leaving the other fields
(and the original objects) unchanged. -/
def scoreAll (f : String → ℚ) (segments : List Segment) : List Segment :=
  segments.map fun segment => { segment with score := f segment.text }

/-- A JS number used as the threshold: `none` models NaN, the value
`parseFloat` yields for a missing or non-numeric form field. -/
abbrev JSNum := Option ℚ

/-- JS `a >= b` for a real `a` and a possibly-NaN `b`: false whenever `b`
is NaN. -/
def jsGe (a : ℚ) (b : JSNum) : Bool :=
  match b with
  | none => false
  | some t => decide (t ≤ a)

/-- `analyzeSentiment` of both source files: score every segment, then keep
those with `segment.score >= threshold`. -/
def analyzeSentiment (f : String → ℚ) (segments : List Segment) (threshold : JSNum) :
    List Segment :=
  (scoreAll f segments).filter fun segment => jsGe segment.score threshold

/-- JS number-to-string interpolation, abstracted by the ℚ printer; no claim
depends on the decimal rendering of the interpolated numbers. -/
def ratStr (q : ℚ) : String := toString q

/-- The `filterComplex` string of both POST handlers. -/
def filterComplexFor (matching : List Segment) : String :=
  String.intercalate "; " (matching.enum.map fun p =>
    "[0:v]trim=start=" ++ ratStr p.2.start ++ ":end=" ++ ratStr p.2.endTime ++
      ",setpts=PTS-STARTPTS[v" ++ toString p.1 ++ "]; [0:a]atrim=start=" ++
      ratStr p.2.start ++ ":end=" ++ ratStr p.2.endTime ++
      ",asetpts=PTS-STARTPTS[a" ++ toString p.1 ++ "]")

/-- The `concatInputs` string of both POST handlers. -/
def concatInputsFor (matching : List Segment) : String :=
  String.join (matching.enum.map fun p =>
    "[v" ++ toString p.1 ++ "][a" ++ toString p.1 ++ "]")

/-- The `ffmpegCommand` ternary of both POST handlers: a command string when
at least one segment matched, otherwise `null`. -/
def mkFfmpegCommand (videoUrl : String) (matching : List Segment) : Option String :=
  if 0 < matching.length then
    some ("ffmpeg -i \"" ++ videoUrl ++ "\" -filter_complex \"" ++
      filterComplexFor matching ++ "; " ++ concatInputsFor matching ++
      "concat=n=" ++ toString matching.length ++
      ":v=1:a=1[outv][outa]\" -map \"[outv]\" -map \"[outa]\" output.mp4")
  else none

/-- The response fields the development reasons about; the `statistics`,
`n8nData` and `cutPoints` blocks of the source repeat these values. -/
structure AnalyzeResult where
  success : Bool
  videoUrl : String
  threshold : JSNum
  totalSegments : Nat
  matchingSegments : Nat
  averageSentiment : ℚ
  segments : List Segment
  ffmpegCommand : Option String
deriving DecidableEq

/-- `POST` of `src/app/api/analyze/route.ts`.  `transcriptFile` is the
uploaded file's text (`none` = form field missing; an empty file is still a
present, truthy `File` object), `videoUrl` the form field (`none` = missing,
and the empty string is falsy), and `threshold` the result of `parseFloat`
on the threshold field (`none` = NaN).  Note `totalScore` sums the *parsed*
`segments`, whose `score` field is still the `0` the parser wrote —
`analyzeSentiment` builds new objects and never mutates them. -/
def POST (f : String → ℚ) (transcriptFile videoUrl : Option String)
    (threshold : JSNum) : Except String AnalyzeResult :=
  match transcriptFile, videoUrl with
  | none, _ => .error "Missing required fields"
  | _, none => .error "Missing required fields"
  | some transcriptContent, some url =>
    if url = "" then .error "Missing required fields"
    else
      let segments := parseTranscript transcriptContent
      if segments.isEmpty then
        .error "Could not parse transcript. Please use SRT format or plain text with timestamps."
      else
        let matchingSegments := analyzeSentiment f segments threshold
        let totalScore := segments.foldl (fun sum seg => sum + seg.score) (0 : ℚ)
        let averageSentiment := totalScore / segments.length
        let ffmpegCommand := mkFfmpegCommand url matchingSegments
        .ok { success := true, videoUrl := url, threshold := threshold,
              totalSegments := segments.length,
              matchingSegments := matchingSegments.length,
              averageSentiment := averageSentiment,
              segments := matchingSegments, ffmpegCommand := ffmpegCommand }

/-- Truthiness of a JS string-or-undefined: missing and `""` are falsy. -/
def jsTruthy (s : Option String) : Bool :=
  match s with
  | none => false
  | some t => decide (t ≠ "")

/-- `POST` of `src/unnamed/part_000` (the n8n webhook): JSON body fields
`transcript`, `transcriptContent` and `videoUrl` (each possibly absent) and
`threshold` (absent ⇒ the destructuring default 0).  `content` is
`transcriptContent || transcript`.  As in the upload handler, `totalScore`
sums the parsed, still-unscored segments. -/
def POST_webhook (f : String → ℚ)
    (transcript transcriptContent videoUrl : Option String)
    (thresholdField : Option ℚ) : Except String AnalyzeResult :=
  let threshold : ℚ := thresholdField.getD 0
  match videoUrl with
  | none => .error "videoUrl is required"
  | some url =>
    if url = "" then .error "videoUrl is required"
    else
      let content := if jsTruthy transcriptContent then transcriptContent else transcript
      match content with
      | none => .error "transcript or transcriptContent is required"
      | some c =>
        if c = "" then .error "transcript or transcriptContent is required"
        else
          let segments := parseTranscriptWebhook c
          if segments.isEmpty then .error "Could not parse transcript"
          else
            let matchingSegments := analyzeSentiment f segments (some threshold)
            let totalScore := segments.foldl (fun sum seg => sum + seg.score) (0 : ℚ)
            let averageSentiment := totalScore / segments.length
            let ffmpegCommand := mkFfmpegCommand url matchingSegments
            .ok { success := true, videoUrl := url, threshold := some threshold,
                  totalSegments := segments.length,
                  matchingSegments := matchingSegments.length,
                  averageSentiment := averageSentiment,
                  segments := matchingSegments, ffmpegCommand := ffmpegCommand }

/-- The success payload of a handler response, if any. -/
def resultOf : Except String AnalyzeResult → Option AnalyzeResult
  | .ok r => some r
  | .error _ => none

/-- A lexicon instance scoring every text 0 (no lexicon word occurs). -/
def zeroScorer : String → ℚ := fun _ => 0

/-- A lexicon instance scoring every text -1. -/
def negScorer : String → ℚ := fun _ => -1

/-- A lexicon instance behaving like AFINN on one positive sentence. -/
def greatScorer : String → ℚ :=
  fun t => if t = "Great news today!" then 3 else 0

/-- Consecutive segments abut: each segment's `endTime` is the next
segment's `start`. -/
def Chained : List Segment → Prop
  | a :: b :: rest => a.endTime = b.start ∧ Chained (b :: rest)
  | _ => True

theorem layout_length (t0 : ℚ) (ss : List (List Char)) :
    (layout t0 ss).length = ss.length := by
  induction ss generalizing t0 with
  | nil => rfl
  | cons s rest ih => simp [layout, ih]

theorem layout_text (t0 : ℚ) (ss : List (List Char)) :
    (layout t0 ss).map Segment.text = ss.map (fun s => String.mk (jsTrim s)) := by
  induction ss generalizing t0 with
  | nil => rfl
  | cons s rest ih => simp [layout, ih]

theorem jsMin_eq_min (a b : ℚ) : jsMin a b = min a b := by
  simp [jsMin, min_def]

theorem jsMax_eq_max (a b : ℚ) : jsMax a b = max a b := by
  simp [jsMax, max_def]

theorem layout_duration (ss : List (List Char)) : ∀ (t0 : ℚ), ∀ seg ∈ layout t0 ss,
    seg.endTime = seg.start + max 3 (min 10 ((seg.text.length : ℚ) / 10)) := by
  induction ss with
  | nil => intro t0 seg h; simp [layout] at h
  | cons s rest ih =>
    intro t0 seg h
    simp only [layout, List.mem_cons] at h
    rcases h with h | h
    · subst h
      simp [durFor, jsMax_eq_max, jsMin_eq_min, String.length]
    · exact ih (t0 + durFor (jsTrim s)) seg h

theorem layout_score (ss : List (List Char)) : ∀ (t0 : ℚ), ∀ seg ∈ layout t0 ss,
    seg.score = 0 := by
  induction ss with
  | nil => intro t0 seg h; simp [layout] at h
  | cons s rest ih =>
    intro t0 seg h
    simp only [layout, List.mem_cons] at h
    rcases h with h | h
    · subst h; rfl
    · exact ih (t0 + durFor (jsTrim s)) seg h

theorem layout_chained (ss : List (List Char)) : ∀ t0 : ℚ, Chained (layout t0 ss) := by
  induction ss with
  | nil => intro t0; simp [layout, Chained]
  | cons s rest ih =>
    intro t0
    cases rest with
    | nil => simp [layout, Chained]
    | cons s2 rest2 =>
      have h := ih (t0 + durFor (jsTrim s))
      simp only [layout] at h ⊢
      exact ⟨rfl, h⟩

theorem jsSentences_ne_nil (cs : List Char) : jsSentences cs ≠ [] := by
  unfold jsSentences
  by_cases h : (sentMatches cs).isEmpty
  · simp [h]
  · simp only [h, if_false, Bool.false_eq_true, ite_false]
    simpa [List.isEmpty_iff] using h

theorem plainSegments_ne_nil (cs : List Char) : plainSegments cs ≠ [] := by
  unfold plainSegments
  cases hj : jsSentences cs with
  | nil => exact absurd hj (jsSentences_ne_nil cs)
  | cons a l => simp [layout]

theorem parseTranscript_ne_nil (c : String) : parseTranscript c ≠ [] := by
  unfold parseTranscript
  by_cases h1 : (srtSegments c.data).isEmpty
  · by_cases h2 : (bracketSegments c.data).isEmpty
    · simp only [h1, if_true, h2]
      exact plainSegments_ne_nil c.data
    · rw [Bool.not_eq_true, List.isEmpty_eq_false] at h2
      simp [h1, h2]
  · rw [Bool.not_eq_true, List.isEmpty_eq_false] at h1
    simp [h1]

theorem parseTranscript_isEmpty_false (c : String) :
    (parseTranscript c).isEmpty = false :=
  List.isEmpty_eq_false.mpr (parseTranscript_ne_nil c)

theorem parseTranscriptWebhook_ne_nil (c : String) : parseTranscriptWebhook c ≠ [] := by
  unfold parseTranscriptWebhook
  by_cases h1 : (srtSegments c.data).isEmpty
  · simp only [h1, if_true]
    exact plainSegments_ne_nil c.data
  · rw [Bool.not_eq_true, List.isEmpty_eq_false] at h1
    simp [h1]

theorem parseTranscriptWebhook_isEmpty_false (c : String) :
    (parseTranscriptWebhook c).isEmpty = false :=
  List.isEmpty_eq_false.mpr (parseTranscriptWebhook_ne_nil c)

theorem analyzeSentiment_some (f : String → ℚ) (segments : List Segment) (t : ℚ) :
    analyzeSentiment f segments (some t) =
      (scoreAll f segments).filter (fun s => decide (t ≤ s.score)) := rfl

theorem analyzeSentiment_none (f : String → ℚ) (segments : List Segment) :
    analyzeSentiment f segments none = [] := by
  unfold analyzeSentiment jsGe
  simp

theorem length_filter_mono {α : Type} (p q : α → Bool) (l : List α)
    (h : ∀ a, q a = true → p a = true) :
    (l.filter q).length ≤ (l.filter p).length := by
  induction l with
  | nil => simp
  | cons a l ih =>
    by_cases hq : q a = true
    · simp [List.filter_cons, hq, h a hq]
      omega
    · rw [Bool.not_eq_true] at hq
      by_cases hp : p a = true
      · simp [List.filter_cons, hq, hp]
        omega
      · rw [Bool.not_eq_true] at hp
        simp [List.filter_cons, hq, hp]
        exact ih

theorem srtHere_score (l : List Char) (seg : Segment) (rest : List Char)
    (h : srtHere l = some (seg, rest)) : seg.score = 0 := by
  unfold srtHere at h
  repeat split at h
  all_goals simp_all
  simp only [Option.bind_eq_some] at h
  obtain ⟨r1, -, p2, -, r3, -, p4, -, r5, -, h⟩ := h
  simp only [Option.some.injEq, Prod.mk.injEq] at h
  obtain ⟨hseg, -⟩ := h
  rw [← hseg]

theorem srtScanAux_score (fuel : Nat) : ∀ (l : List Char),
    ∀ seg ∈ srtScanAux fuel l, seg.score = 0 := by
  induction fuel with
  | zero => intro l seg h; simp [srtScanAux] at h
  | succ fuel ih =>
    intro l seg h
    cases l with
    | nil => simp [srtScanAux] at h
    | cons c cs =>
      simp only [srtScanAux] at h
      cases hm : srtHere (c :: cs) with
      | none =>
        rw [hm] at h
        exact ih cs seg h
      | some p =>
        obtain ⟨seg', rest⟩ := p
        rw [hm] at h
        simp only [List.mem_cons] at h
        rcases h with h | h
        · subst h; exact srtHere_score _ _ _ hm
        · exact ih rest seg h

theorem srtSegments_score (cs : List Char) : ∀ seg ∈ srtSegments cs, seg.score = 0 :=
  srtScanAux_score cs.length cs

theorem bracketSegments_score (cs : List Char) :
    ∀ seg ∈ bracketSegments cs, seg.score = 0 := by
  intro seg h
  unfold bracketSegments at h
  rw [List.mem_filterMap] at h
  obtain ⟨line, -, hline⟩ := h
  cases hb : bracketLine line with
  | none => rw [hb] at hline; simp at hline
  | some p =>
    obtain ⟨hh, mm, ss, tt⟩ := p
    rw [hb] at hline
    simp only [Option.map_some'] at hline
    simp only [Option.some.injEq] at hline
    rw [← hline]

theorem plainSegments_score (cs : List Char) :
    ∀ seg ∈ plainSegments cs, seg.score = 0 := by
  intro seg h
  exact layout_score (jsSentences cs) 0 seg h

theorem parseTranscript_score (c : String) :
    ∀ seg ∈ parseTranscript c, seg.score = 0 := by
  intro seg h
  unfold parseTranscript at h
  by_cases h1 : (srtSegments c.data).isEmpty = true
  · by_cases h2 : (bracketSegments c.data).isEmpty = true
    · simp only [h1, if_true, h2] at h
      exact plainSegments_score c.data seg h
    · rw [Bool.not_eq_true] at h2
      simp only [h1, if_true, h2, Bool.false_eq_true, if_false, ite_false] at h
      exact bracketSegments_score c.data seg h
  · rw [Bool.not_eq_true] at h1
    simp only [h1, Bool.false_eq_true, if_false, ite_false] at h
    exact srtSegments_score c.data seg h

theorem parseTranscriptWebhook_score (c : String) :
    ∀ seg ∈ parseTranscriptWebhook c, seg.score = 0 := by
  intro seg h
  unfold parseTranscriptWebhook at h
  by_cases h1 : (srtSegments c.data).isEmpty = true
  · simp only [h1, if_true] at h
    exact plainSegments_score c.data seg h
  · rw [Bool.not_eq_true] at h1
    simp only [h1, Bool.false_eq_true, if_false, ite_false] at h
    exact srtSegments_score c.data seg h

theorem foldl_score_zero (l : List Segment) (h : ∀ seg ∈ l, seg.score = 0) :
    ∀ q : ℚ, l.foldl (fun sum seg => sum + seg.score) q = q := by
  induction l with
  | nil => intro q; rfl
  | cons a l ih =>
    intro q
    simp only [List.foldl_cons]
    rw [h a (by simp), add_zero]
    exact ih (fun seg hs => h seg (by simp [hs])) q

theorem POST_eq_ok (f : String → ℚ) (c url : String) (t : JSNum) (hurl : ¬ url = "") :
    POST f (some c) (some url) t =
      .ok { success := true, videoUrl := url, threshold := t,
            totalSegments := (parseTranscript c).length,
            matchingSegments := (analyzeSentiment f (parseTranscript c) t).length,
            averageSentiment :=
              ((parseTranscript c).foldl (fun sum seg => sum + seg.score) (0 : ℚ)) /
                ((parseTranscript c).length : ℚ),
            segments := analyzeSentiment f (parseTranscript c) t,
            ffmpegCommand := mkFfmpegCommand url (analyzeSentiment f (parseTranscript c) t) } := by
  show (if url = "" then _ else _) = _
  rw [if_neg hurl]
  simp only [parseTranscript_isEmpty_false, Bool.false_eq_true, if_false, ite_false]

theorem POST_webhook_eq_ok (f : String → ℚ) (c url : String) (tf : Option ℚ)
    (hurl : ¬ url = "") (hc : ¬ c = "") :
    POST_webhook f (some c) none (some url) tf =
      .ok { success := true, videoUrl := url, threshold := some (tf.getD 0),
            totalSegments := (parseTranscriptWebhook c).length,
            matchingSegments :=
              (analyzeSentiment f (parseTranscriptWebhook c) (some (tf.getD 0))).length,
            averageSentiment :=
              ((parseTranscriptWebhook c).foldl (fun sum seg => sum + seg.score) (0 : ℚ)) /
                ((parseTranscriptWebhook c).length : ℚ),
            segments := analyzeSentiment f (parseTranscriptWebhook c) (some (tf.getD 0)),
            ffmpegCommand :=
              mkFfmpegCommand url (analyzeSentiment f (parseTranscriptWebhook c) (some (tf.getD 0))) } := by
  show (if url = "" then _ else _) = _
  rw [if_neg hurl]
  simp only [jsTruthy, Bool.false_eq_true, if_false, ite_false]
  rw [if_neg hc]
  simp only [parseTranscriptWebhook_isEmpty_false, Bool.false_eq_true, if_false, ite_false]

/-- C3: for every input string, `parseTranscript` (and the webhook variant)
returns at least one segment, so the zero-segment error branch of both POST
handlers is unreachable; on the empty string the single produced segment
has empty text, start 0 and end 3. -/
theorem C3_parser_always_yields_a_segment :
    (∀ content : String, (parseTranscript content).isEmpty = false) ∧
    (∀ content : String, (parseTranscriptWebhook content).isEmpty = false) ∧
    parseTranscript "" = [{ start := 0, endTime := 3, text := "", score := 0 }] :=
  ⟨parseTranscript_isEmpty_false, parseTranscriptWebhook_isEmpty_false,
    by with_unfolding_all decide⟩

/-- C5: the Segment Filter returns exactly the scored segments with
`score >= t` (boundary inclusive, so a score equal to `t` is kept), as a
sublist of the scored sequence — original relative order preserved — for
every real threshold `t`. -/
theorem C5_filter_exact (f : String → ℚ) (segments : List Segment) (t : ℚ) :
    analyzeSentiment f segments (some t) =
        (scoreAll f segments).filter (fun s => decide (t ≤ s.score)) ∧
    (analyzeSentiment f segments (some t)).Sublist (scoreAll f segments) ∧
    ∀ s : Segment, s ∈ analyzeSentiment f segments (some t) ↔
        s ∈ scoreAll f segments ∧ t ≤ s.score := by
  refine ⟨rfl, List.filter_sublist _, fun s => ?_⟩
  rw [analyzeSentiment_some, List.mem_filter]
  simp

/-- C6: raising the threshold never increases the kept-segment count, for
both entry points. -/
theorem C6_kept_count_antitone (f : String → ℚ) (content : String) (t1 t2 : ℚ)
    (h : t1 < t2) :
    (analyzeSentiment f (parseTranscript content) (some t2)).length ≤
      (analyzeSentiment f (parseTranscript content) (some t1)).length ∧
    (analyzeSentiment f (parseTranscriptWebhook content) (some t2)).length ≤
      (analyzeSentiment f (parseTranscriptWebhook content) (some t1)).length := by
  constructor <;>
  · unfold analyzeSentiment
    apply length_filter_mono
    intro seg hseg
    simp only [jsGe, decide_eq_true_eq] at hseg ⊢
    exact le_trans h.le hseg

/-- Witness for C6: thresholds 0 < 1 on a concrete transcript. -/
theorem C6_kept_count_antitone_witness :
    (analyzeSentiment zeroScorer (parseTranscript "Hi. Bye.") (some 1)).length ≤
      (analyzeSentiment zeroScorer (parseTranscript "Hi. Bye.") (some 0)).length ∧
    (analyzeSentiment zeroScorer (parseTranscriptWebhook "Hi. Bye.") (some 1)).length ≤
      (analyzeSentiment zeroScorer (parseTranscriptWebhook "Hi. Bye.") (some 0)).length :=
  C6_kept_count_antitone zeroScorer "Hi. Bye." 0 1 (by norm_num)

/-- C2 counterexample: empty transcript content at the upload entry point
is answered with a success result (one empty-text segment), not with the
unparsable-transcript failure the claim requires. -/
theorem C2_counterexample_empty_is_success :
    resultOf (POST zeroScorer (some "") (some "u") (some 1)) =
      some { success := true, videoUrl := "u", threshold := some 1, totalSegments := 1,
             matchingSegments := 0, averageSentiment := 0, segments := [],
             ffmpegCommand := none } := by with_unfolding_all decide

/-- C2 amended: no input makes segmentation yield zero segments, so the
unparsable-transcript branch never fires; for empty content the upload
entry point returns a success result with exactly one segment, while the
webhook entry point rejects empty content with its missing-input error. -/
theorem C2_amended_empty_content (f : String → ℚ) (t : JSNum) (url : String)
    (hurl : url ≠ "") :
    (∃ r, POST f (some "") (some url) t = .ok r ∧
        r.success = true ∧ r.totalSegments = 1) ∧
    POST_webhook f (some "") none (some url) none =
      .error "transcript or transcriptContent is required" ∧
    POST_webhook f none (some "") (some url) none =
      .error "transcript or transcriptContent is required" := by
  refine ⟨⟨_, POST_eq_ok f "" url t hurl, rfl, ?_⟩, ?_, ?_⟩
  · have hp : parseTranscript "" =
        [{ start := 0, endTime := 3, text := "", score := 0 }] := by
      with_unfolding_all decide
    simp [hp]
  · show (if url = "" then _ else _) = _
    rw [if_neg hurl]
    rw [if_pos rfl]
  · show (if url = "" then _ else _) = _
    rw [if_neg hurl]

/-- Witness for C2's amended claim at a concrete request. -/
theorem C2_amended_empty_content_witness :
    ∃ r, POST zeroScorer (some "") (some "u") (some 0) = .ok r ∧
      r.success = true ∧ r.totalSegments = 1 :=
  (C2_amended_empty_content zeroScorer (some 0) "u" (by decide)).1

/-- C4 counterexample: at the upload entry point, omitting the threshold
field makes `parseFloat` yield NaN, so no segment is kept (count 0), while
supplying threshold 0 keeps one — the two results differ. -/
theorem C4_counterexample_upload_nan_threshold :
    (resultOf (POST zeroScorer (some "Hi.") (some "u") none)).map
        AnalyzeResult.matchingSegments = some 0 ∧
    (resultOf (POST zeroScorer (some "Hi.") (some "u") (some 0))).map
        AnalyzeResult.matchingSegments = some 1 ∧
    resultOf (POST zeroScorer (some "Hi.") (some "u") none) ≠
      resultOf (POST zeroScorer (some "Hi.") (some "u") (some 0)) := by
  with_unfolding_all decide

/-- C4 amended: the webhook entry point treats an omitted threshold exactly
as threshold 0, but at the upload entry point an omitted threshold parses
to NaN, so every comparison fails and no segment is ever kept. -/
theorem C4_amended_threshold_default (f : String → ℚ)
    (transcript transcriptContent videoUrl : Option String) :
    POST_webhook f transcript transcriptContent videoUrl none =
      POST_webhook f transcript transcriptContent videoUrl (some 0) ∧
    ∀ (content url : String) (r : AnalyzeResult),
        POST f (some content) (some url) none = .ok r →
        r.segments = [] ∧ r.matchingSegments = 0 ∧ r.ffmpegCommand = none := by
  constructor
  · rfl
  · intro content url r h
    by_cases hurl : url = ""
    · subst hurl
      have he : POST f (some content) (some "") none =
          Except.error "Missing required fields" := by
        with_unfolding_all rfl
      rw [he] at h
      exact Except.noConfusion h
    · rw [POST_eq_ok f content url none hurl] at h
      injection h with h'
      subst h'
      refine ⟨?_, ?_, ?_⟩ <;> simp [analyzeSentiment_none, mkFfmpegCommand]

/-- C7: when no segment meets the threshold, both entry points still return
a success result whose `ffmpegCommand` is `null` — an explicit absence,
not an empty string and not an error. -/
theorem C7_empty_kept_command_absent (f : String → ℚ) (content url : String) (t : ℚ)
    (hurl : url ≠ "") (hc : content ≠ "")
    (h1 : analyzeSentiment f (parseTranscript content) (some t) = [])
    (h2 : analyzeSentiment f (parseTranscriptWebhook content) (some t) = []) :
    (∃ r, POST f (some content) (some url) (some t) = .ok r ∧
        r.success = true ∧ r.ffmpegCommand = none ∧ r.segments = []) ∧
    (∃ r, POST_webhook f (some content) none (some url) (some t) = .ok r ∧
        r.success = true ∧ r.ffmpegCommand = none ∧ r.segments = []) := by
  constructor
  · exact ⟨_, POST_eq_ok f content url (some t) hurl, rfl,
      by simp [h1, mkFfmpegCommand], h1⟩
  · refine ⟨_, POST_webhook_eq_ok f content url (some t) hurl hc, rfl, ?_, ?_⟩
    · show mkFfmpegCommand url (analyzeSentiment f (parseTranscriptWebhook content)
        (some ((some t).getD 0))) = none
      simp only [Option.getD_some]
      simp [h2, mkFfmpegCommand]
    · show analyzeSentiment f (parseTranscriptWebhook content)
        (some ((some t).getD 0)) = []
      simpa using h2

/-- Witness for C7 at a concrete request whose only segment scores -1. -/
theorem C7_empty_kept_command_absent_witness :
    (∃ r, POST negScorer (some "Hi.") (some "u") (some 0) = .ok r ∧
        r.success = true ∧ r.ffmpegCommand = none ∧ r.segments = []) ∧
    (∃ r, POST_webhook negScorer (some "Hi.") none (some "u") (some 0) = .ok r ∧
        r.success = true ∧ r.ffmpegCommand = none ∧ r.segments = []) :=
  C7_empty_kept_command_absent negScorer "Hi." "u" 0 (by decide) (by decide)
    (by with_unfolding_all decide) (by with_unfolding_all decide)

/-- C1 (code bug): both handlers sum the *pre-scoring* segment objects —
`analyzeSentiment` builds new scored objects and never mutates the parsed
ones, whose `score` is still 0 — so the returned `averageSentiment` is
always 0, not the average of the scores the Scorer assigned (which is 3
for the concrete sample below). -/
theorem C1_average_ignores_assigned_scores :
    (∀ (f : String → ℚ) (c url : String) (t : JSNum) (r : AnalyzeResult),
        POST f (some c) (some url) t = .ok r → r.averageSentiment = 0) ∧
    (∀ (f : String → ℚ) (c url : String) (tf : Option ℚ) (r : AnalyzeResult),
        POST_webhook f (some c) none (some url) tf = .ok r → r.averageSentiment = 0) ∧
    (resultOf (POST greatScorer (some "Great news today!") (some "u") (some 0))).map
        AnalyzeResult.averageSentiment = some 0 ∧
    ((scoreAll greatScorer (parseTranscript "Great news today!")).foldl
        (fun sum seg => sum + seg.score) (0 : ℚ)) /
      ((parseTranscript "Great news today!").length : ℚ) = 3 := by
  refine ⟨?_, ?_, by with_unfolding_all decide, by with_unfolding_all decide⟩
  · intro f c url t r h
    by_cases hurl : url = ""
    · subst hurl
      have he : POST f (some c) (some "") t =
          Except.error "Missing required fields" := by
        with_unfolding_all rfl
      rw [he] at h
      exact Except.noConfusion h
    · rw [POST_eq_ok f c url t hurl] at h
      injection h with h'
      subst h'
      show ((parseTranscript c).foldl (fun sum seg => sum + seg.score) (0 : ℚ)) /
          ((parseTranscript c).length : ℚ) = 0
      rw [foldl_score_zero (parseTranscript c) (parseTranscript_score c) 0, zero_div]
  · intro f c url tf r h
    by_cases hurl : url = ""
    · subst hurl
      have he : POST_webhook f (some c) none (some "") tf =
          Except.error "videoUrl is required" := by
        with_unfolding_all rfl
      rw [he] at h
      exact Except.noConfusion h
    · by_cases hc : c = ""
      · subst hc
        have he : POST_webhook f (some "") none (some url) tf =
            Except.error "transcript or transcriptContent is required" := by
          show (if url = "" then _ else _) = _
          rw [if_neg hurl]
          rw [if_pos rfl]
        rw [he] at h
        exact Except.noConfusion h
      · rw [POST_webhook_eq_ok f c url tf hurl hc] at h
        injection h with h'
        subst h'
        show ((parseTranscriptWebhook c).foldl (fun sum seg => sum + seg.score) (0 : ℚ)) /
            ((parseTranscriptWebhook c).length : ℚ) = 0
        rw [foldl_score_zero (parseTranscriptWebhook c) (parseTranscriptWebhook_score c) 0,
          zero_div]

/-- C8: when both timestamped strategies yield nothing, `parseTranscript`
runs the sentence heuristic: the segment texts are the trimmed regex chunks
(`jsSentences` is the whole input as a single chunk when no sentence
terminator matches), each segment's duration is `max 3 (min 10 (len/10))`
seconds of its trimmed text, the first segment starts at time 0, and
consecutive segments abut with no gap. -/
theorem C8_sentence_heuristic (content : String)
    (h1 : srtSegments content.data = [])
    (h2 : bracketSegments content.data = []) :
    parseTranscript content = plainSegments content.data ∧
    (plainSegments content.data).map Segment.text =
        (jsSentences content.data).map (fun s => String.mk (jsTrim s)) ∧
    (∀ seg ∈ plainSegments content.data,
        seg.endTime = seg.start + max 3 (min 10 ((seg.text.length : ℚ) / 10))) ∧
    (∀ seg rest, plainSegments content.data = seg :: rest → seg.start = 0) ∧
    Chained (plainSegments content.data) := by
  refine ⟨?_, layout_text 0 _, layout_duration _ 0, ?_, layout_chained _ 0⟩
  · unfold parseTranscript
    simp [h1, h2]
  · intro seg rest h
    unfold plainSegments at h
    cases hj : jsSentences content.data with
    | nil => exact absurd hj (jsSentences_ne_nil content.data)
    | cons s ss =>
      rw [hj] at h
      simp only [layout] at h
      rw [List.cons.injEq] at h
      obtain ⟨hseg, -⟩ := h
      rw [← hseg]

/-- Witness for C8 on the spec's plain-text sample. -/
theorem C8_sentence_heuristic_witness :
    parseTranscript "Hi. Bye." = plainSegments ("Hi. Bye.".data) :=
  (C8_sentence_heuristic "Hi. Bye." (by with_unfolding_all decide)
    (by with_unfolding_all decide)).1

/-- C9: the bracketed-timestamp strategy exists only in the upload entry
point and runs only when the SRT strategy yields zero segments; each
matching line becomes a segment with `start = h*3600 + m*60 + s` and
`end = start + 5` regardless of the next line, so consecutive segments can
overlap, as the concrete input shows (its second segment starts at 2,
before the first ends at 6); the webhook entry point falls through directly
to the plain-text heuristic. -/
theorem C9_bracket_strategy :
    (∀ content : String, srtSegments content.data = [] →
        parseTranscriptWebhook content = plainSegments content.data) ∧
    (∀ content : String, srtSegments content.data ≠ [] →
        parseTranscript content = srtSegments content.data) ∧
    (∀ content : String, srtSegments content.data = [] →
        bracketSegments content.data ≠ [] →
        parseTranscript content = bracketSegments content.data) ∧
    (∀ cs : List Char, ∀ seg ∈ bracketSegments cs, seg.endTime = seg.start + 5) ∧
    (∀ (line : List Char) (hh mm ss : Nat) (tt cs : List Char),
        line ∈ (splitNl cs).filter (fun x => !(jsTrim x).isEmpty) →
        bracketLine line = some (hh, mm, ss, tt) →
        { start := timeFromFields3 hh mm ss, endTime := timeFromFields3 hh mm ss + 5,
          text := String.mk (jsTrim tt), score := 0 } ∈ bracketSegments cs) ∧
    bracketSegments ("[00:00:01] a\n[00:00:02] b".data) =
      [{ start := 1, endTime := 6, text := "a", score := 0 },
       { start := 2, endTime := 7, text := "b", score := 0 }] ∧
    (∃ a b, bracketSegments ("[00:00:01] a\n[00:00:02] b".data) = [a, b] ∧
        b.start < a.endTime) := by
  refine ⟨?_, ?_, ?_, ?_, ?_, by with_unfolding_all decide,
    ⟨{ start := 1, endTime := 6, text := "a", score := 0 },
     { start := 2, endTime := 7, text := "b", score := 0 },
     by with_unfolding_all decide, by with_unfolding_all decide⟩⟩
  · intro content h
    unfold parseTranscriptWebhook
    simp [h]
  · intro content h
    have hf : (srtSegments content.data).isEmpty = false := List.isEmpty_eq_false.mpr h
    unfold parseTranscript
    simp [hf]
  · intro content h hb
    have hf : (bracketSegments content.data).isEmpty = false := List.isEmpty_eq_false.mpr hb
    unfold parseTranscript
    simp [h, hf]
  · intro cs seg hseg
    unfold bracketSegments at hseg
    rw [List.mem_filterMap] at hseg
    obtain ⟨line, -, hline⟩ := hseg
    cases hb : bracketLine line with
    | none => rw [hb] at hline; simp at hline
    | some p =>
      obtain ⟨hh, mm, ss, tt⟩ := p
      rw [hb] at hline
      simp only [Option.map_some', Option.some.injEq] at hline
      rw [← hline]
  · intro line hh mm ss tt cs hmem hline
    unfold bracketSegments
    rw [List.mem_filterMap]
    exact ⟨line, hmem, by rw [hline]; rfl⟩

/-- Witness for C9: with SRT matching nothing, the webhook parser falls
through to the sentence heuristic. -/
theorem C9_bracket_strategy_witness :
    parseTranscriptWebhook "Hi" = plainSegments ("Hi".data) :=
  C9_bracket_strategy.1 "Hi" (by with_unfolding_all decide)

set_option maxRecDepth 4000 in
/-- C10: the Timestamp Parser arithmetic — six SRT fields give
`h*3600 + m*60 + s + ms/1000` seconds, three bracketed fields give
`h*3600 + m*60 + s` — with no range validation: 99 minutes flows through
the same formulas in both concrete parses. -/
theorem C10_timestamp_arithmetic :
    (∀ h m s ms : Nat, timeFromFields h m s ms =
        (h : ℚ) * 3600 + (m : ℚ) * 60 + (s : ℚ) + (ms : ℚ) / 1000) ∧
    (∀ h m s : Nat, timeFromFields3 h m s = (h : ℚ) * 3600 + (m : ℚ) * 60 + (s : ℚ)) ∧
    parseTranscript "1\n00:99:02,500 --> 00:99:03,000\nHi" =
      [{ start := timeFromFields 0 99 2 500, endTime := timeFromFields 0 99 3 0,
         text := "Hi", score := 0 }] ∧
    timeFromFields 0 99 2 500 = 5942.5 ∧
    timeFromFields 0 99 3 0 = 5943 ∧
    bracketSegments ("[00:99:00] x".data) =
      [{ start := timeFromFields3 0 99 0, endTime := timeFromFields3 0 99 0 + 5,
         text := "x", score := 0 }] ∧
    timeFromFields3 0 99 0 = 5940 :=
  ⟨fun h m s ms => rfl, fun h m s => rfl, by with_unfolding_all rfl,
    by norm_num [timeFromFields], by norm_num [timeFromFields],
    by with_unfolding_all rfl, by norm_num [timeFromFields3]⟩
